import Mathlib

/-!
Shallow embedding of `src/serles/backends/dane.py` (the `DaneBackend` ACME
backend of htools-dane-ca) and proofs about its certificate-issuance
pipeline.

The Python module issues a short-lived certificate chain: it parses a DER
CSR, generates an ephemeral CA (`generate_ephemeral_ca`), builds and signs
a leaf certificate with the caller-supplied subject and alternative names,
bundles the two PEM certificates into a PKCS#7 blob by invoking
`openssl crl2pkcs7` (`create_fullchain`), derives a TLSA digest
(SHA-256 of the leaf public key's DER SubjectPublicKeyInfo, lowercase hex),
and fires a best-effort notification email (`send_cert_issue_email`),
returning `(bundle, None)`.

External effects (entropy, the wall clock, the openssl subprocess, the
SendGrid HTTP call) are modelled by an explicit environment record `Env`;
library serialisations (`public_bytes(Encoding.PEM)`, the PKCS#7 DER
output) are modelled by concrete executable encoders over `List Nat`
byte strings.
-/

namespace Dane

/-- Byte strings are lists of naturals; well-formed bytes are `< 256`. -/
abbrev Bytes := List Nat

/-- A public key, identified by the DER encoding of its
SubjectPublicKeyInfo (what `public_bytes(Encoding.DER,
PublicFormat.SubjectPublicKeyInfo)` returns in the source). -/
structure PublicKey where
  spkiDer : Bytes
deriving DecidableEq, Repr

/-- An RSA private key handle, as returned by
`rsa.generate_private_key`; the key material itself is opaque. -/
structure RSAPrivateKey where
  keyId : Nat
deriving DecidableEq, Repr

/-- A fresh RSA key pair: the private key and its derived public key
(`private_key.public_key()` in the source). -/
structure RSAKeyPair where
  priv : RSAPrivateKey
  pub : PublicKey
deriving DecidableEq, Repr

/-- The X.509 name attribute types the source uses (`NameOID.*`). -/
inductive OID
  | commonName
  | organizationName
  | organizationalUnitName
deriving DecidableEq, Repr

/-- An `x509.Name`: an ordered list of (attribute type, value) pairs. -/
abbrev Name := List (OID × String)

/-- A general name inside a subject-alternative-name extension; the
source only ever constructs `x509.DNSName`. -/
inductive GeneralName
  | dnsName (value : String)
deriving DecidableEq, Repr

/-- Extension values the source attaches:
`x509.SubjectAlternativeName` and `x509.BasicConstraints`. -/
inductive ExtensionValue
  | subjectAlternativeName (names : List GeneralName)
  | basicConstraints (ca : Bool) (path_length : Option Nat)
deriving DecidableEq, Repr

/-- An X.509 extension: a value plus its criticality flag
(the `critical=` keyword of `add_extension`). -/
structure Extension where
  value : ExtensionValue
  critical : Bool
deriving DecidableEq, Repr

/-- Hash algorithms used for signing; the source always passes
`hashes.SHA256()`. -/
inductive HashAlg
  | sha256
deriving DecidableEq, Repr

/-- An X.509 certificate as assembled by `x509.CertificateBuilder` and
`builder.sign(...)`.  Validity times are in seconds (as `Int`, so the
backdated `not_valid_before` may go negative relative to the epoch). -/
structure Certificate where
  subject : Name
  issuer : Name
  publicKey : PublicKey
  serialNumber : Nat
  notValidBefore : Int
  notValidAfter : Int
  extensions : List Extension
  signedWith : RSAPrivateKey
  signatureHash : HashAlg
deriving DecidableEq, Repr

/-- A parsed certificate signing request (`x509.load_der_x509_csr`
result); the pipeline only ever reads its public key
(`csr_obj.public_key()`). -/
structure CSR where
  publicKey : PublicKey
deriving DecidableEq, Repr

/-- Exceptions the embedded pipeline can raise (Python exceptions that
escape `sign`). -/
inductive PyError
  | malformedCSR
  | processSpawnError
deriving DecidableEq, Repr

/-- `datetime.timedelta(days=5)`, in seconds. -/
def TIME_DELTA : Int := 5 * 86400

/-- Big-endian interpretation of a byte string
(`int.from_bytes(bs, "big")`). -/
def bytesToNatBE (bs : Bytes) : Nat :=
  bs.foldl (fun acc b => acc * 256 + b) 0

/-- The byte rewriting `uuid.UUID(bytes=..., version=4)` performs on its
16 random bytes: the high nibble of byte 6 becomes `0x4` (version) and
the top two bits of byte 8 become `10` (variant).  The first argument
is the index of the head of the remaining list. -/
def uuid4Adjust : Nat → Bytes → Bytes
  | _, [] => []
  | i, b :: rest =>
    (if i = 6 then b % 16 + 64
     else if i = 8 then b % 64 + 128
     else b) :: uuid4Adjust (i + 1) rest

/-- `int(uuid.uuid4())` given the 16 bytes `os.urandom(16)` produced:
big-endian integer of the version/variant-adjusted bytes. -/
def uuid4Int (bs : Bytes) : Nat :=
  bytesToNatBE (uuid4Adjust 0 bs)

/-- `x509.random_serial_number()` given the 20 bytes `os.urandom(20)`
produced: `int.from_bytes(bytes, "big") >> 1`. -/
def random_serial_number (bs : Bytes) : Nat :=
  bytesToNatBE bs / 2

/-- The external world as observed by one `sign` call: the entropy the
two random draws and the CA key generation consume, the wall-clock
samples (`datetime.datetime.utcnow()` is called four times, indexed in
call order), the openssl subprocess, and whether the SendGrid call
raises. -/
structure Env where
  /-- result of `rsa.generate_private_key(public_exponent=65537, key_size=2048)` -/
  caKeyPair : RSAKeyPair
  /-- the 16 bytes `uuid.uuid4()` draws from `os.urandom` -/
  uuidBytes : Bytes
  /-- the 20 bytes `x509.random_serial_number()` draws from `os.urandom` -/
  serialBytes : Bytes
  /-- the i-th `datetime.datetime.utcnow()` sample of this call, seconds -/
  now : Nat → Int
  /-- the openssl `crl2pkcs7` invocation on the temp-file contents, in
  `-certfile` order: `none` models `Popen` raising (binary unavailable);
  `some out` models the subprocess running with stdout contents `out`
  (possibly empty, e.g. on a non-zero exit). -/
  toolchain : List Bytes → Option Bytes
  /-- whether `send_cert_issue_email` raises (config `KeyError`,
  `requests.post` failure, ...) -/
  emailRaises : Bool

/-- Length-prefixed framing of one byte string inside a multi-blob
artifact. -/
def frame (b : Bytes) : Bytes := b.length :: b

/-- Length-prefixed framing of a sequence of byte strings. -/
def frameList : List Bytes → Bytes
  | [] => []
  | b :: rest => frame b ++ frameList rest

/-- Inverse of `frameList`: recover the framed byte strings, or `none`
on malformed input. -/
def unframeList : List Nat → Option (List Bytes)
  | [] => some []
  | n :: rest =>
    if n ≤ rest.length then
      match unframeList (rest.drop n) with
      | some blobs => some (rest.take n :: blobs)
      | none => none
    else none
termination_by l => l.length
decreasing_by
  simp only [List.length_drop, List.length_cons]
  omega

/-- Injective byte encoding of a string (its character code points). -/
def encodeString (s : String) : Bytes := s.toList.map Char.toNat

/-- Byte tag of a name attribute type. -/
def oidByte : OID → Nat
  | .commonName => 0
  | .organizationName => 1
  | .organizationalUnitName => 2

/-- Byte encoding of an `x509.Name`. -/
def encodeName (n : Name) : Bytes :=
  frameList (n.map (fun a => oidByte a.1 :: encodeString a.2))

/-- Byte encoding of one extension. -/
def encodeExtension (e : Extension) : Bytes :=
  (if e.critical then 1 else 0) ::
    match e.value with
    | .subjectAlternativeName names =>
        0 :: frameList (names.map (fun g => match g with
          | .dnsName v => encodeString v))
    | .basicConstraints ca pl =>
        1 :: (if ca then 1 else 0) ::
          (match pl with | none => [0] | some k => [1, k])

/-- `certificate.public_bytes(Encoding.PEM)`: a concrete serialisation
of every certificate field into one byte string. -/
def pemEncode (c : Certificate) : Bytes :=
  frameList
    [ encodeName c.subject
    , encodeName c.issuer
    , c.publicKey.spkiDer
    , [c.serialNumber]
    , [(c.notValidBefore + 2 ^ 64).toNat]
    , [(c.notValidAfter + 2 ^ 64).toNat]
    , frameList (c.extensions.map encodeExtension)
    , [c.signedWith.keyId]
    ]

/-- `create_fullchain`: writes each PEM blob to a temp file, invokes
`openssl crl2pkcs7 -nocrl -outform DER` with one `-certfile` per blob in
list order, and returns the subprocess stdout verbatim — the source
checks neither the exit status nor that the output is non-empty. -/
def create_fullchain (env : Env) (certs : List Bytes) : Except PyError Bytes :=
  match env.toolchain certs with
  | none => .error .processSpawnError
  | some pem_cert => .ok pem_cert

/-- The fixed descriptive name of the throwaway CA
(`Handshake Tools Ephemeral CA` / `Handshake Tools` / `ACME`). -/
def caName : Name :=
  [ (.commonName, "Handshake Tools Ephemeral CA")
  , (.organizationName, "Handshake Tools")
  , (.organizationalUnitName, "ACME") ]

/-- `generate_ephemeral_ca`: fresh 2048-bit RSA key pair; self-signed
certificate with identical fixed subject and issuer, validity
`utcnow() ± TIME_DELTA` (clock samples 0 and 1), serial
`int(uuid.uuid4())`, a critical `BasicConstraints(ca=True,
path_length=None)` extension, signed with the CA key over SHA-256. -/
def generate_ephemeral_ca (env : Env) : Certificate × RSAPrivateKey :=
  let private_key := env.caKeyPair.priv
  let public_key := env.caKeyPair.pub
  let certificate : Certificate :=
    { subject := caName
      issuer := caName
      notValidBefore := env.now 0 - TIME_DELTA
      notValidAfter := env.now 1 + TIME_DELTA
      serialNumber := uuid4Int env.uuidBytes
      publicKey := public_key
      extensions := [⟨.basicConstraints true none, true⟩]
      signedWith := private_key
      signatureHash := .sha256 }
  (certificate, private_key)

/-- `send_cert_issue_email`: posts to the SendGrid API; a non-2xx
status is only printed, so the only observable failure mode is a raised
exception (modelled by `env.emailRaises`). -/
def send_cert_issue_email (env : Env) : Except Unit Unit :=
  if env.emailRaises then .error () else .ok ()

/-- Everything one successful run of the pipeline body of
`DaneBackend.sign` produces, before the final `return (bundle, None)`:
the two certificates, the bundle bytes, the TLSA digest string, and
whether the (caught) email step raised. -/
structure SignOutcome where
  caCert : Certificate
  leafCert : Certificate
  bundle : Bytes
  tlsaDigest : String
  emailFailed : Bool
deriving Repr

/-- Hex character of a nibble, as Python's `hexdigest` renders it
(lowercase `0`–`9`, `a`–`f`). -/
def hexChar (n : Nat) : Char :=
  if n < 10 then Char.ofNat (48 + n) else Char.ofNat (87 + n)

/-- Two lowercase hex characters of one byte. -/
def byteToHex (b : Nat) : List Char :=
  [hexChar (b / 16), hexChar (b % 16)]

/-- `hashlib.sha256(bs).hexdigest()` given the raw digest bytes:
lowercase hexadecimal rendering. -/
def hexdigest (bs : Bytes) : String :=
  ⟨(bs.map byteToHex).flatten⟩

/-- The body of `DaneBackend.sign`, with intermediate artifacts kept
observable: parse the DER CSR; build `subject = issuer =
Name([CN(subjectDN)])`; generate the ephemeral CA; build the leaf
certificate (public key from the CSR, serial
`x509.random_serial_number()`, validity `utcnow() ± TIME_DELTA` via
clock samples 2 and 3, a non-critical SubjectAlternativeName of
`DNSName`s in input order) and sign it with the CA key; bundle
`[CA PEM, leaf PEM]` through `create_fullchain`; derive the TLSA digest
`sha256(leaf SPKI DER).hexdigest()`; attempt the notification email,
swallowing any exception.  `sha256` (the raw 32-byte hash function) and
`parseCSR` (the library DER parser) are opaque parameters. -/
def signPipeline (parseCSR : Bytes → Option CSR) (sha256 : Bytes → Bytes)
    (env : Env) (csr : Bytes) (subjectDN : String)
    (subjectAltNames : List String) (_email : String) :
    Except PyError SignOutcome :=
  match parseCSR csr with
  | none => .error .malformedCSR
  | some csr_obj =>
    let subject : Name := [(.commonName, subjectDN)]
    let issuer := subject
    let ca := generate_ephemeral_ca env
    let ca_cert := ca.1
    let ca_privkey := ca.2
    let certificate : Certificate :=
      { subject := subject
        issuer := issuer
        publicKey := csr_obj.publicKey
        serialNumber := random_serial_number env.serialBytes
        notValidBefore := env.now 2 - TIME_DELTA
        notValidAfter := env.now 3 + TIME_DELTA
        extensions :=
          [⟨.subjectAlternativeName (subjectAltNames.map .dnsName), false⟩]
        signedWith := ca_privkey
        signatureHash := .sha256 }
    (create_fullchain env [pemEncode ca_cert, pemEncode certificate]).map
      fun bundle =>
        let cert_bytes := certificate.publicKey.spkiDer
        let tlsa_digest := hexdigest (sha256 cert_bytes)
        let emailFailed :=
          match send_cert_issue_email env with
          | .error _ => true
          | .ok _ => false
        { caCert := ca_cert
          leafCert := certificate
          bundle := bundle
          tlsaDigest := tlsa_digest
          emailFailed := emailFailed }

/-- `DaneBackend.sign` as the caller sees it: the pipeline, then
`return (bundle, None)` — the second slot of the returned pair is the
literal `None` of the source. -/
def sign (parseCSR : Bytes → Option CSR) (sha256 : Bytes → Bytes)
    (env : Env) (csr : Bytes) (subjectDN : String)
    (subjectAltNames : List String) (email : String) :
    Except PyError (Bytes × Option Bytes) :=
  (signPipeline parseCSR sha256 env csr subjectDN subjectAltNames email).map
    (fun o => (o.bundle, none))

/-- The DNS strings carried by a list of general names. -/
def decodeGeneralNames (gs : List GeneralName) : List String :=
  gs.map (fun g => match g with | .dnsName v => v)

/-- Decode a certificate's subject-alternative-name extension: the DNS
names of the first SAN extension present, or `none` if there is no SAN
extension. -/
def sanDnsNames (c : Certificate) : Option (List String) :=
  c.extensions.findSome? (fun e =>
    match e.value with
    | .subjectAlternativeName names => some (decodeGeneralNames names)
    | _ => none)

/-- Whether a character is a lowercase hexadecimal digit
(`0`–`9` or `a`–`f`). -/
def isLowerHexChar (c : Char) : Bool :=
  (48 ≤ c.toNat && c.toNat ≤ 57) || (97 ≤ c.toNat && c.toNat ≤ 102)

/-- Modelled from the spec (§6 outbound collaborators): the behaviour
of a correctly functioning chain-assembly toolchain — invoked with the
PEM-encoded certificate inputs, it returns one bundle containing
exactly those certificates, in order.  Used as a hypothesis on
`Env.toolchain` when a claim presumes the collaborator meets its
contract. -/
def toolchainContract (env : Env) : Prop :=
  ∀ pems, env.toolchain pems = some (frameList pems)

/-- A placeholder certificate (used only as the default value when
projecting a known-successful pipeline run out of `Except`). -/
def dummyCert : Certificate :=
  { subject := [], issuer := [], publicKey := ⟨[]⟩, serialNumber := 0
    notValidBefore := 0, notValidAfter := 0, extensions := []
    signedWith := ⟨0⟩, signatureHash := .sha256 }

/-- Placeholder outcome, see `dummyCert`. -/
def dummyOutcome : SignOutcome :=
  { caCert := dummyCert, leafCert := dummyCert, bundle := []
    tlsaDigest := "", emailFailed := false }

/-- A concrete well-behaved environment for evaluating the pipeline:
fixed entropy, a constant clock, a toolchain meeting its contract, and
a working notification sink. -/
def envW : Env :=
  { caKeyPair := ⟨⟨5⟩, ⟨[7, 7]⟩⟩
    uuidBytes := List.replicate 16 0
    serialBytes := List.replicate 20 0
    now := fun _ => 1000000
    toolchain := fun pems => some (frameList pems)
    emailRaises := false }

/-- A concrete stand-in for the library CSR parser: every byte string
parses to a CSR whose public key SPKI is those bytes. -/
def parseW : Bytes → Option CSR := fun b => some ⟨⟨b⟩⟩

/-- A concrete stand-in for SHA-256: 32 zero bytes. -/
def shaW : Bytes → Bytes := fun _ => List.replicate 32 0

/-! ### Helper lemmas -/

theorem unframeList_frameList (l : List Bytes) :
    unframeList (frameList l) = some l := by
  induction l with
  | nil => simp [frameList, unframeList]
  | cons b t ih =>
    show unframeList (frame b ++ frameList t) = _
    rw [frame, List.cons_append, unframeList]
    have hle : b.length ≤ (b ++ frameList t).length := by
      simp [List.length_append]
    rw [if_pos hle, List.drop_left, List.take_left, ih]

theorem foldl_byte_lt (bs : Bytes) (h : ∀ b ∈ bs, b < 256) :
    ∀ acc : Nat,
      bs.foldl (fun a b => a * 256 + b) acc < (acc + 1) * 256 ^ bs.length := by
  induction bs with
  | nil => intro acc; simp
  | cons b t ih =>
    intro acc
    have hb : b < 256 := h b (List.mem_cons_self b t)
    have ht : ∀ x ∈ t, x < 256 := fun x hx => h x (List.mem_cons_of_mem b hx)
    have h1 := ih ht (acc * 256 + b)
    have h2 : (acc * 256 + b + 1) * 256 ^ t.length ≤
        (acc + 1) * 256 ^ (t.length + 1) := by
      have : acc * 256 + b + 1 ≤ (acc + 1) * 256 := by nlinarith
      calc (acc * 256 + b + 1) * 256 ^ t.length
          ≤ (acc + 1) * 256 * 256 ^ t.length :=
            Nat.mul_le_mul_right _ this
        _ = (acc + 1) * 256 ^ (t.length + 1) := by ring
    simpa [List.length_cons] using lt_of_lt_of_le h1 h2

theorem bytesToNatBE_lt (bs : Bytes) (h : ∀ b ∈ bs, b < 256) :
    bytesToNatBE bs < 256 ^ bs.length := by
  simpa [bytesToNatBE] using foldl_byte_lt bs h 0

theorem uuid4Adjust_length (bs : Bytes) : ∀ i, (uuid4Adjust i bs).length = bs.length := by
  induction bs with
  | nil => intro i; rfl
  | cons b t ih => intro i; simp [uuid4Adjust, ih]

theorem uuid4Adjust_bytes_lt (bs : Bytes) (h : ∀ b ∈ bs, b < 256) :
    ∀ i, ∀ x ∈ uuid4Adjust i bs, x < 256 := by
  induction bs with
  | nil => intro i x hx; simp [uuid4Adjust] at hx
  | cons b t ih =>
    intro i x hx
    have hb : b < 256 := h b (List.mem_cons_self b t)
    have ht : ∀ y ∈ t, y < 256 := fun y hy => h y (List.mem_cons_of_mem b hy)
    simp only [uuid4Adjust, List.mem_cons] at hx
    rcases hx with hx | hx
    · subst hx
      have h16 : b % 16 < 16 := Nat.mod_lt b (by norm_num)
      have h64 : b % 64 < 64 := Nat.mod_lt b (by norm_num)
      split <;> [omega; skip]
      split <;> omega
    · exact ih ht (i + 1) x hx

theorem uuid4Int_lt (bs : Bytes) (hlen : bs.length = 16)
    (h : ∀ b ∈ bs, b < 256) : uuid4Int bs < 2 ^ 128 := by
  have h1 := bytesToNatBE_lt (uuid4Adjust 0 bs) (uuid4Adjust_bytes_lt bs h 0)
  rw [uuid4Adjust_length bs 0, hlen] at h1
  calc uuid4Int bs < 256 ^ 16 := h1
    _ = 2 ^ 128 := by norm_num

theorem random_serial_number_lt (bs : Bytes) (hlen : bs.length = 20)
    (h : ∀ b ∈ bs, b < 256) : random_serial_number bs < 2 ^ 159 := by
  have h1 := bytesToNatBE_lt bs h
  rw [hlen] at h1
  have h2 : (256 : Nat) ^ 20 = 2 ^ 159 * 2 := by norm_num
  exact Nat.div_lt_of_lt_mul (h2 ▸ h1)

theorem hexdigest_length (bs : Bytes) :
    (hexdigest bs).length = 2 * bs.length := by
  induction bs with
  | nil => rfl
  | cons b t ih =>
    simp only [hexdigest, String.length] at ih ⊢
    simp only [List.map_cons, List.flatten_cons, byteToHex, List.length_append,
      List.length_cons, List.length_nil] at ih ⊢
    omega

theorem hexChar_isLowerHex : ∀ n < 16, isLowerHexChar (hexChar n) = true := by
  decide

theorem hexbytes_chars (bs : Bytes) (h : ∀ b ∈ bs, b < 256) :
    ∀ c ∈ (bs.map byteToHex).flatten, isLowerHexChar c = true := by
  induction bs with
  | nil => intro c hc; simp at hc
  | cons b t ih =>
    intro c hc
    have hb : b < 256 := h b (List.mem_cons_self b t)
    have ht : ∀ y ∈ t, y < 256 := fun y hy => h y (List.mem_cons_of_mem b hy)
    simp only [List.map_cons, List.flatten_cons, byteToHex, List.cons_append,
      List.nil_append, List.mem_cons] at hc
    rcases hc with hc | hc | hc
    · subst hc; exact hexChar_isLowerHex _ (Nat.div_lt_of_lt_mul (by omega))
    · subst hc; exact hexChar_isLowerHex _ (Nat.mod_lt b (by norm_num))
    · exact ih ht c hc

theorem hexdigest_chars (bs : Bytes) (h : ∀ b ∈ bs, b < 256) :
    ∀ c ∈ (hexdigest bs).toList, isLowerHexChar c = true :=
  hexbytes_chars bs h

theorem create_fullchain_ok_iff (env : Env) (certs : List Bytes) (b : Bytes) :
    create_fullchain env certs = .ok b ↔ env.toolchain certs = some b := by
  unfold create_fullchain
  cases env.toolchain certs <;> simp

theorem except_map_eq_ok {ε α β : Type} (f : α → β) (x : Except ε α) (o : β)
    (h : x.map f = .ok o) : ∃ a, x = .ok a ∧ o = f a := by
  cases x with
  | error e => simp [Except.map] at h
  | ok a => refine ⟨a, rfl, ?_⟩; simpa [Except.map] using h.symm

/-- Inversion of a successful pipeline run: the CSR parsed, the CA is
the ephemeral CA, the leaf is the builder's certificate, the bundle is
the toolchain's output on `[CA PEM, leaf PEM]`, and the digest is the
hex SHA-256 of the leaf key's SPKI DER. -/
theorem signPipeline_ok_elim (pc : Bytes → Option CSR) (sh : Bytes → Bytes)
    (env : Env) (csr : Bytes) (dn : String) (sans : List String) (em : String)
    (o : SignOutcome)
    (h : signPipeline pc sh env csr dn sans em = .ok o) :
    ∃ csr_obj, pc csr = some csr_obj ∧
      o.caCert = (generate_ephemeral_ca env).1 ∧
      o.leafCert =
        { subject := [(.commonName, dn)]
          issuer := [(.commonName, dn)]
          publicKey := csr_obj.publicKey
          serialNumber := random_serial_number env.serialBytes
          notValidBefore := env.now 2 - TIME_DELTA
          notValidAfter := env.now 3 + TIME_DELTA
          extensions := [⟨.subjectAlternativeName (sans.map .dnsName), false⟩]
          signedWith := (generate_ephemeral_ca env).2
          signatureHash := .sha256 } ∧
      env.toolchain [pemEncode o.caCert, pemEncode o.leafCert] = some o.bundle ∧
      o.tlsaDigest = hexdigest (sh o.leafCert.publicKey.spkiDer) := by
  unfold signPipeline at h
  cases hpc : pc csr with
  | none => rw [hpc] at h; exact absurd h (by simp)
  | some csr_obj =>
    rw [hpc] at h
    refine ⟨csr_obj, rfl, ?_⟩
    obtain ⟨bundle, hcf, ho⟩ := except_map_eq_ok _ _ _ h
    subst ho
    exact ⟨rfl, rfl, (create_fullchain_ok_iff _ _ _).mp hcf, rfl⟩

theorem except_map_map {ε α β γ : Type} (f : α → β) (g : β → γ)
    (x : Except ε α) : (x.map f).map g = x.map (fun a => g (f a)) := by
  cases x <;> rfl

theorem decodeGeneralNames_map_dnsName (l : List String) :
    decodeGeneralNames (l.map GeneralName.dnsName) = l := by
  induction l with
  | nil => rfl
  | cons a t ih => exact congrArg (List.cons a) ih

/-! ### Concrete runs used by witnesses and counterexamples -/

/-- A concrete successful pipeline run in the well-behaved environment. -/
def outW : SignOutcome :=
  ((signPipeline parseW shaW envW [3] "w.test" ["a.test", "b.test"]
    "ops@w.test").toOption).getD dummyOutcome

/-- The value `sign` returns in the well-behaved environment. -/
def resultW : Bytes × Option Bytes :=
  ((sign parseW shaW envW [3] "w.test" ["a.test", "b.test"]
    "ops@w.test").toOption).getD ([], none)

/-- The environment in which the openssl subprocess runs but produces
empty standard output (as happens when it exits non-zero, e.g. because a
certificate temp file could not be read). -/
def envC1 : Env := { envW with toolchain := fun _ => some [] }

/-- A concrete successful run used to compare leaf issuer and CA subject. -/
def c2Outcome : SignOutcome :=
  ((signPipeline parseW shaW envW [2] "example.test" ["www.example.test"]
    "ops@example.test").toOption).getD dummyOutcome

/-- The environment in which `x509.random_serial_number()` draws all-ones
entropy, exhibiting the largest leaf serial the scheme can produce. -/
def envC9 : Env := { envW with serialBytes := List.replicate 20 255 }

/-- The pipeline run in `envC9`. -/
def c9Outcome : SignOutcome :=
  ((signPipeline parseW shaW envC9 [4] "s.test" [] "ops@s.test").toOption).getD
    dummyOutcome

/-! ### Claims -/

/-- Claim C1 (code-bug evidence): the spec requires that a failing
chain-assembly toolchain invocation makes `sign` return an error and no
bundle, but when the openssl subprocess runs and produces empty output
(non-zero exit), the code returns `(b"", None)`: an empty bundle and no
error, because `create_fullchain` checks neither the exit status nor
the output. -/
theorem sign_empty_toolchain_output_returns_ok :
    sign parseW shaW envC1 [1] "example.test" ["www.example.test"]
      "ops@example.test" = .ok ([], none) := rfl

/-- Claim C2 (counterexample): on a concrete successful run, the leaf
certificate's issuer name is not the ephemeral CA certificate's subject
name — the code sets `subject = issuer` from the caller-supplied
`subjectDN` instead. -/
theorem c2_leaf_issuer_ne_ca_subject :
    signPipeline parseW shaW envW [2] "example.test" ["www.example.test"]
        "ops@example.test" = .ok c2Outcome ∧
      c2Outcome.leafCert.issuer ≠ c2Outcome.caCert.subject :=
  ⟨rfl, by decide⟩

/-- Claim C2 (amended): for every successful pipeline run, the leaf's
issuer name is the single-attribute name `CN=subjectDN` — a
self-referential copy of the leaf's own subject — and it never equals
the ephemeral CA certificate's (three-attribute) subject name. -/
theorem leaf_issuer_is_selfreferential_subjectDN (pc : Bytes → Option CSR)
    (sh : Bytes → Bytes) (env : Env) (csr : Bytes) (dn : String)
    (sans : List String) (em : String) (o : SignOutcome)
    (h : signPipeline pc sh env csr dn sans em = .ok o) :
    o.leafCert.issuer = [(.commonName, dn)] ∧
    o.leafCert.issuer = o.leafCert.subject ∧
    o.leafCert.issuer ≠ o.caCert.subject := by
  obtain ⟨c, -, hca, hleaf, -, -⟩ :=
    signPipeline_ok_elim pc sh env csr dn sans em o h
  refine ⟨by rw [hleaf], by rw [hleaf], ?_⟩
  rw [hleaf, hca]
  intro hEq
  have hlen := congrArg List.length hEq
  simp [generate_ephemeral_ca, caName] at hlen

/-- Witness for the amended C2 at a concrete input. -/
theorem leaf_issuer_is_selfreferential_subjectDN_witness :
    outW.leafCert.issuer = [(.commonName, "w.test")] ∧
    outW.leafCert.issuer = outW.leafCert.subject ∧
    outW.leafCert.issuer ≠ outW.caCert.subject :=
  leaf_issuer_is_selfreferential_subjectDN parseW shaW envW [3] "w.test"
    ["a.test", "b.test"] "ops@w.test" outW rfl

/-- Claim C3: for every successful pipeline run, the public key embedded
in the leaf certificate is byte-for-byte (its SubjectPublicKeyInfo DER)
the public key of the parsed CSR. -/
theorem leaf_publicKey_eq_csr_publicKey (pc : Bytes → Option CSR)
    (sh : Bytes → Bytes) (env : Env) (csr : Bytes) (dn : String)
    (sans : List String) (em : String) (csr_obj : CSR) (o : SignOutcome)
    (hparse : pc csr = some csr_obj)
    (h : signPipeline pc sh env csr dn sans em = .ok o) :
    o.leafCert.publicKey.spkiDer = csr_obj.publicKey.spkiDer := by
  obtain ⟨c, hpc, -, hleaf, -, -⟩ :=
    signPipeline_ok_elim pc sh env csr dn sans em o h
  rw [hparse] at hpc
  injection hpc with hc
  rw [hleaf, ← hc]

/-- Witness for C3 at a concrete input. -/
theorem leaf_publicKey_eq_csr_publicKey_witness :
    outW.leafCert.publicKey.spkiDer = (⟨⟨[3]⟩⟩ : CSR).publicKey.spkiDer :=
  leaf_publicKey_eq_csr_publicKey parseW shaW envW [3] "w.test"
    ["a.test", "b.test"] "ops@w.test" ⟨⟨[3]⟩⟩ outW rfl rfl

/-- Claim C4: when the chain-assembly toolchain meets its contract
(returns one bundle holding exactly its input certificates, in order),
every successful `sign` returns a bundle that decodes to exactly two
certificates: the CA certificate's PEM first, the leaf certificate's
PEM second. -/
theorem bundle_contains_ca_then_leaf (pc : Bytes → Option CSR)
    (sh : Bytes → Bytes) (env : Env) (csr : Bytes) (dn : String)
    (sans : List String) (em : String) (o : SignOutcome)
    (hctc : toolchainContract env)
    (h : signPipeline pc sh env csr dn sans em = .ok o) :
    unframeList o.bundle = some [pemEncode o.caCert, pemEncode o.leafCert] := by
  obtain ⟨c, -, -, -, hb, -⟩ :=
    signPipeline_ok_elim pc sh env csr dn sans em o h
  rw [hctc] at hb
  injection hb with hb
  rw [← hb, unframeList_frameList]

/-- Witness for C4 at a concrete input. -/
theorem bundle_contains_ca_then_leaf_witness :
    unframeList outW.bundle =
      some [pemEncode outW.caCert, pemEncode outW.leafCert] :=
  bundle_contains_ca_then_leaf parseW shaW envW [3] "w.test"
    ["a.test", "b.test"] "ops@w.test" outW (fun _ => rfl) rfl

/-- Claim C5: for every successful pipeline run, the TLSA digest is the
SHA-256 hash of the leaf certificate public key's DER
SubjectPublicKeyInfo, rendered in lowercase hexadecimal, of length 64
(given that the hash function returns 32 bytes). -/
theorem tlsa_digest_spec (pc : Bytes → Option CSR) (sh : Bytes → Bytes)
    (env : Env) (csr : Bytes) (dn : String) (sans : List String)
    (em : String) (o : SignOutcome)
    (h : signPipeline pc sh env csr dn sans em = .ok o)
    (hlen : (sh o.leafCert.publicKey.spkiDer).length = 32)
    (hbytes : ∀ b ∈ sh o.leafCert.publicKey.spkiDer, b < 256) :
    o.tlsaDigest = hexdigest (sh o.leafCert.publicKey.spkiDer) ∧
    o.tlsaDigest.length = 64 ∧
    ∀ c ∈ o.tlsaDigest.toList, isLowerHexChar c = true := by
  obtain ⟨c, -, -, -, -, hd⟩ :=
    signPipeline_ok_elim pc sh env csr dn sans em o h
  refine ⟨hd, ?_, ?_⟩
  · rw [hd, hexdigest_length, hlen]
  · rw [hd]; exact hexdigest_chars _ hbytes

/-- Witness for C5 at a concrete input. -/
theorem tlsa_digest_spec_witness :
    outW.tlsaDigest = hexdigest (shaW outW.leafCert.publicKey.spkiDer) ∧
    outW.tlsaDigest.length = 64 ∧
    ∀ c ∈ outW.tlsaDigest.toList, isLowerHexChar c = true :=
  tlsa_digest_spec parseW shaW envW [3] "w.test" ["a.test", "b.test"]
    "ops@w.test" outW rfl rfl (by decide)

/-- Claim C6: whether or not the notification sink raises has no effect
on what `sign` returns — the exception is caught and the same
`(bundle, None)` value is produced. -/
theorem sign_independent_of_email_failure (pc : Bytes → Option CSR)
    (sh : Bytes → Bytes) (env : Env) (b : Bool) (csr : Bytes) (dn : String)
    (sans : List String) (em : String) :
    sign pc sh { env with emailRaises := b } csr dn sans em =
      sign pc sh env csr dn sans em := by
  unfold sign signPipeline
  cases hpc : pc csr with
  | none => rfl
  | some c =>
    dsimp only
    rw [except_map_map, except_map_map]
    rfl

/-- Claim C7: with the wall clock constant at `t` during the call, both
certificates have `notBefore = t - TIME_DELTA` and
`notAfter = t + TIME_DELTA`, a validity window of exactly 10 days with
`t` strictly inside it. -/
theorem validity_window_spec (pc : Bytes → Option CSR) (sh : Bytes → Bytes)
    (env : Env) (csr : Bytes) (dn : String) (sans : List String)
    (em : String) (o : SignOutcome) (t : Int)
    (hclock : ∀ i, env.now i = t)
    (h : signPipeline pc sh env csr dn sans em = .ok o) :
    o.caCert.notValidBefore = t - TIME_DELTA ∧
    o.caCert.notValidAfter = t + TIME_DELTA ∧
    o.leafCert.notValidBefore = t - TIME_DELTA ∧
    o.leafCert.notValidAfter = t + TIME_DELTA ∧
    o.caCert.notValidAfter - o.caCert.notValidBefore = 10 * 86400 ∧
    o.leafCert.notValidAfter - o.leafCert.notValidBefore = 10 * 86400 ∧
    o.caCert.notValidBefore < t ∧ t < o.caCert.notValidAfter ∧
    o.leafCert.notValidBefore < t ∧ t < o.leafCert.notValidAfter := by
  obtain ⟨c, -, hca, hleaf, -, -⟩ :=
    signPipeline_ok_elim pc sh env csr dn sans em o h
  rw [hca, hleaf]
  refine ⟨?_, ?_, ?_, ?_, ?_, ?_, ?_, ?_, ?_, ?_⟩ <;>
    simp only [generate_ephemeral_ca, hclock, TIME_DELTA] <;> omega

/-- Witness for C7 at a concrete input. -/
theorem validity_window_spec_witness :
    outW.caCert.notValidBefore = 1000000 - TIME_DELTA ∧
    outW.caCert.notValidAfter = 1000000 + TIME_DELTA ∧
    outW.leafCert.notValidBefore = 1000000 - TIME_DELTA ∧
    outW.leafCert.notValidAfter = 1000000 + TIME_DELTA ∧
    outW.caCert.notValidAfter - outW.caCert.notValidBefore = 10 * 86400 ∧
    outW.leafCert.notValidAfter - outW.leafCert.notValidBefore = 10 * 86400 ∧
    outW.caCert.notValidBefore < 1000000 ∧
    (1000000 : Int) < outW.caCert.notValidAfter ∧
    outW.leafCert.notValidBefore < 1000000 ∧
    (1000000 : Int) < outW.leafCert.notValidAfter :=
  validity_window_spec parseW shaW envW [3] "w.test" ["a.test", "b.test"]
    "ops@w.test" outW 1000000 (fun _ => rfl) rfl

/-- Claim C8: for every input alternative-name sequence (empty
included), the leaf certificate's extension list is exactly one
non-critical subject-alternative-name extension whose decoded DNS names
are the input sequence, in order. -/
theorem leaf_san_spec (pc : Bytes → Option CSR) (sh : Bytes → Bytes)
    (env : Env) (csr : Bytes) (dn : String) (sans : List String)
    (em : String) (o : SignOutcome)
    (h : signPipeline pc sh env csr dn sans em = .ok o) :
    o.leafCert.extensions =
      [⟨.subjectAlternativeName (sans.map .dnsName), false⟩] ∧
    sanDnsNames o.leafCert = some sans := by
  obtain ⟨c, -, -, hleaf, -, -⟩ :=
    signPipeline_ok_elim pc sh env csr dn sans em o h
  rw [hleaf]
  refine ⟨rfl, ?_⟩
  show some (decodeGeneralNames (sans.map GeneralName.dnsName)) = some sans
  exact congrArg some (decodeGeneralNames_map_dnsName sans)

/-- Witness for C8 at a concrete input. -/
theorem leaf_san_spec_witness :
    outW.leafCert.extensions =
      [⟨.subjectAlternativeName (["a.test", "b.test"].map .dnsName), false⟩] ∧
    sanDnsNames outW.leafCert = some ["a.test", "b.test"] :=
  leaf_san_spec parseW shaW envW [3] "w.test" ["a.test", "b.test"]
    "ops@w.test" outW rfl

/-- Claim C9 (counterexample): on the concrete run whose serial entropy
is 20 bytes of `0xFF`, the leaf certificate's serial number is
`2 ^ 159 - 1`, which lies outside `[0, 2 ^ 128)` — so the leaf serial is
not drawn by the CA's 128-bit `int(uuid.uuid4())` scheme. -/
theorem c9_leaf_serial_not_uuid_scheme :
    signPipeline parseW shaW envC9 [4] "s.test" [] "ops@s.test" =
        .ok c9Outcome ∧
      c9Outcome.leafCert.serialNumber = 2 ^ 159 - 1 ∧
      ¬ c9Outcome.leafCert.serialNumber < 2 ^ 128 :=
  ⟨rfl, by decide, by decide⟩

/-- Claim C9 (amended): the CA certificate's serial is
`int(uuid.uuid4())`, a 128-bit value in `[0, 2 ^ 128)`; the leaf
certificate's serial is `x509.random_serial_number()`, a different
large-random scheme whose range is `[0, 2 ^ 159)`. -/
theorem serial_number_schemes (pc : Bytes → Option CSR) (sh : Bytes → Bytes)
    (env : Env) (csr : Bytes) (dn : String) (sans : List String)
    (em : String) (o : SignOutcome)
    (hu16 : env.uuidBytes.length = 16)
    (hu : ∀ b ∈ env.uuidBytes, b < 256)
    (hs20 : env.serialBytes.length = 20)
    (hs : ∀ b ∈ env.serialBytes, b < 256)
    (h : signPipeline pc sh env csr dn sans em = .ok o) :
    o.caCert.serialNumber = uuid4Int env.uuidBytes ∧
    o.caCert.serialNumber < 2 ^ 128 ∧
    o.leafCert.serialNumber = random_serial_number env.serialBytes ∧
    o.leafCert.serialNumber < 2 ^ 159 := by
  obtain ⟨c, -, hca, hleaf, -, -⟩ :=
    signPipeline_ok_elim pc sh env csr dn sans em o h
  have hcaSer : o.caCert.serialNumber = uuid4Int env.uuidBytes := by
    rw [hca]; rfl
  have hleafSer : o.leafCert.serialNumber = random_serial_number env.serialBytes := by
    rw [hleaf]
  exact ⟨hcaSer, hcaSer ▸ uuid4Int_lt env.uuidBytes hu16 hu,
    hleafSer, hleafSer ▸ random_serial_number_lt env.serialBytes hs20 hs⟩

/-- Witness for the amended C9 at a concrete input. -/
theorem serial_number_schemes_witness :
    outW.caCert.serialNumber = uuid4Int envW.uuidBytes ∧
    outW.caCert.serialNumber < 2 ^ 128 ∧
    outW.leafCert.serialNumber = random_serial_number envW.serialBytes ∧
    outW.leafCert.serialNumber < 2 ^ 159 :=
  serial_number_schemes parseW shaW envW [3] "w.test" ["a.test", "b.test"]
    "ops@w.test" outW rfl (by decide) rfl (by decide) rfl

/-- Claim C10: whenever `sign` returns a value instead of raising, the
second component of the returned pair is `None` — errors in earlier
stages surface only as raised exceptions, never through the error slot. -/
theorem sign_error_slot_none (pc : Bytes → Option CSR) (sh : Bytes → Bytes)
    (env : Env) (csr : Bytes) (dn : String) (sans : List String)
    (em : String) (r : Bytes × Option Bytes)
    (h : sign pc sh env csr dn sans em = .ok r) : r.2 = none := by
  unfold sign at h
  obtain ⟨o, -, hr⟩ := except_map_eq_ok _ _ _ h
  rw [hr]

/-- Witness for C10 at a concrete input. -/
theorem sign_error_slot_none_witness : resultW.2 = none :=
  sign_error_slot_none parseW shaW envW [3] "w.test" ["a.test", "b.test"]
    "ops@w.test" resultW rfl

end Dane
